import Mathlib

/-!
Verification of the TDOA audio-geolocation system against its specification.

The development shallowly embeds the two Python sources:

* `tdoa_server.py` — the hyperbola engine `compute_hyperbola_local`
  (lines 9..114), the per-pair aggregation `generate_map` (lines 116..200)
  and the UDP receive loop of `run_server` (lines 202..249);
* `main.py` — the detection reporter's outgoing message (line 87).

Machine floats are modelled by real numbers, so the "within numerical
tolerance" clauses of the specification are settled exactly (tolerance zero).
NumPy arrays of sample points become Lean lists; the pair of parallel arrays
`(lats, lons)` returned by the engine becomes one list of pairs.  A raised
`ValueError` becomes the `none` case of an `Option` result.
-/

noncomputable section

/-- `np.radians`: degrees to radians (`tdoa_server.py` line 20). -/
def radians (x : ℝ) : ℝ := x * Real.pi / 180

/-- Metres per degree of latitude at a given mean latitude in radians
(`tdoa_server.py` lines 21..26). -/
def m_per_deg_lat (meanLat : ℝ) : ℝ :=
  111132.92 - 559.82 * Real.cos (2 * meanLat) + 1.175 * Real.cos (4 * meanLat)
    - 0.0023 * Real.cos (6 * meanLat)

/-- Metres per degree of longitude at a given mean latitude in radians
(`tdoa_server.py` lines 27..31). -/
def m_per_deg_lon (meanLat : ℝ) : ℝ :=
  111412.84 * Real.cos meanLat - 93.5 * Real.cos (3 * meanLat) + 0.118 * Real.cos (5 * meanLat)

/-- `np.hypot` (`tdoa_server.py` line 43). -/
def hypot (x y : ℝ) : ℝ := Real.sqrt (x ^ 2 + y ^ 2)

/-- `np.linspace lo hi n` with its default inclusive endpoint: the `i`-th
sample is `lo + (hi - lo) * i / (n - 1)`.  For `n = 1` the division by zero
yields `lo`, matching NumPy's single-sample behaviour. -/
def linspace (lo hi : ℝ) (n : ℕ) : List ℝ :=
  (List.range n).map fun i : ℕ => lo + (hi - lo) * (i : ℝ) / ((n : ℝ) - 1)

/-- `np.arccosh` on `[1, ∞)`, used at `tdoa_server.py` line 89 as
`u_max = np.arccosh(10)`; `arccosh x = log (x + sqrt (x^2 - 1))`. -/
def arccosh (x : ℝ) : ℝ := Real.log (x + Real.sqrt (x ^ 2 - 1))

/-- `np.arctan2 y x` (`tdoa_server.py` line 86): the argument of the complex
number `x + y*i`, in `(-π, π]`. -/
def atan2 (y x : ℝ) : ℝ := Complex.arg ⟨x, y⟩

/-- `mean_lat` of `tdoa_server.py` line 20: radians of the mean of the two
receiver latitudes.  Receivers are `(latitude, longitude)` pairs in degrees. -/
def mean_lat (R1 R2 : ℝ × ℝ) : ℝ := radians ((R1.1 + R2.1) / 2)

/-- Local tangent-plane coordinates `(x2, y2)` of receiver 2, in metres,
receiver 1 at the origin (`tdoa_server.py` lines 33..37). -/
def projected_R2 (R1 R2 : ℝ × ℝ) : ℝ × ℝ :=
  ((R2.2 - R1.2) * m_per_deg_lon (mean_lat R1 R2), (R2.1 - R1.1) * m_per_deg_lat (mean_lat R1 R2))

/-- `d = np.hypot(x2 - x1, y2 - y1)` (`tdoa_server.py` line 43), with
`x1 = y1 = 0`: the projected baseline length. -/
def baseline_dist (R1 R2 : ℝ × ℝ) : ℝ := hypot (projected_R2 R1 R2).1 (projected_R2 R1 R2).2

/-- The conversion of a local tangent-plane point back to `(latitude,
longitude)` (`tdoa_server.py` lines 110..112). -/
def to_latlon (R1 R2 : ℝ × ℝ) (p : ℝ × ℝ) : ℝ × ℝ :=
  (p.2 / m_per_deg_lat (mean_lat R1 R2) + R1.1, p.1 / m_per_deg_lon (mean_lat R1 R2) + R1.2)

/-- `x_prime` of the rotated-frame parametrisation: `a * cosh u`, negated when
`delta_d < 0` (`tdoa_server.py` lines 93 and 96..98). -/
def x_prime (delta_d a u : ℝ) : ℝ :=
  if delta_d < 0 then -(a * Real.cosh u) else a * Real.cosh u

/-- The `a == 0` branch of `compute_hyperbola_local` (`tdoa_server.py`
lines 54..72): the sampled perpendicular bisector of the baseline, with the
`dy == 0` and `dx == 0` orientations as exact vertical/horizontal lines.
Here `x0 = x2 / 2`, `y0 = y2 / 2`, `dx = x2`, `dy = y2` since receiver 1 is
the local origin. -/
def bisector_points (x2 y2 : ℝ) (n : ℕ) : List (ℝ × ℝ) :=
  if y2 = 0 then
    (linspace (y2 / 2 - 10000) (y2 / 2 + 10000) n).map fun y => (x2 / 2, y)
  else if x2 = 0 then
    (linspace (x2 / 2 - 10000) (x2 / 2 + 10000) n).map fun x => (x, y2 / 2)
  else
    (linspace (x2 / 2 - 10000) (x2 / 2 + 10000) n).map fun x =>
      (x, (-x2 / y2) * (x - x2 / 2) + y2 / 2)

/-- The regular branch of `compute_hyperbola_local` (`tdoa_server.py`
lines 74..108): `a = |delta_d| / 2`, `c = d / 2`, `b = sqrt (c^2 - a^2)`,
`theta = arctan2 (y2 - y1) (x2 - x1)`; the branch is sampled at
`u ∈ linspace (-arccosh 10) (arccosh 10) n`, rotated by `theta` and
translated to the baseline midpoint `(x2 / 2, y2 / 2)`. -/
def branch_points (x2 y2 delta_d : ℝ) (n : ℕ) : List (ℝ × ℝ) :=
  (linspace (-(arccosh 10)) (arccosh 10) n).map fun u =>
    (x_prime delta_d (|delta_d| / 2) u * Real.cos (atan2 y2 x2)
        - Real.sqrt ((hypot x2 y2 / 2) ^ 2 - (|delta_d| / 2) ^ 2) * Real.sinh u
          * Real.sin (atan2 y2 x2)
        + x2 / 2,
      x_prime delta_d (|delta_d| / 2) u * Real.sin (atan2 y2 x2)
        + Real.sqrt ((hypot x2 y2 / 2) ^ 2 - (|delta_d| / 2) ^ 2) * Real.sinh u
          * Real.cos (atan2 y2 x2)
        + y2 / 2)

/-- The sample points of the locus in the local tangent-plane frame: the
`a == 0` test of `tdoa_server.py` line 55 selects the bisector branch
(`delta_d = delta_t * v`, `a = |delta_d| / 2`), otherwise the hyperbola
branch. -/
def hyperbola_xy (R1 R2 : ℝ × ℝ) (delta_t v : ℝ) (n : ℕ) : List (ℝ × ℝ) :=
  if |delta_t * v| / 2 = 0 then
    bisector_points (projected_R2 R1 R2).1 (projected_R2 R1 R2).2 n
  else
    branch_points (projected_R2 R1 R2).1 (projected_R2 R1 R2).2 (delta_t * v) n

/-- `compute_hyperbola_local` (`tdoa_server.py` lines 9..114).  The guard of
lines 46..49 — `abs delta_d > d` raises `ValueError` — becomes the `none`
result; otherwise the local sample points are converted back to latitude and
longitude (lines 110..114).  `num_points` defaults to 1000 at the call site. -/
def compute_hyperbola_local (R1 R2 : ℝ × ℝ) (delta_t v : ℝ) (n : ℕ) :
    Option (List (ℝ × ℝ)) :=
  if |delta_t * v| > baseline_dist R1 R2 then none
  else some ((hyperbola_xy R1 R2 delta_t v n).map (to_latlon R1 R2))

/-- Euclidean distance between two points of the local tangent plane. -/
def local_dist (p q : ℝ × ℝ) : ℝ := hypot (p.1 - q.1) (p.2 - q.2)

/-- Reflection of a local tangent-plane point across the perpendicular
bisector of the projected baseline: the line through the baseline midpoint
`(x2 / 2, y2 / 2)` orthogonal to the unit baseline direction
`(x2 / d, y2 / d)`.  Stated from the specification's words "mirrors the
selected branch across the bisector". -/
def reflect_bisector (x2 y2 : ℝ) (p : ℝ × ℝ) : ℝ × ℝ :=
  (p.1 - 2 * ((p.1 - x2 / 2) * (x2 / hypot x2 y2) + (p.2 - y2 / 2) * (y2 / hypot x2 y2))
      * (x2 / hypot x2 y2),
   p.2 - 2 * ((p.1 - x2 / 2) * (x2 / hypot x2 y2) + (p.2 - y2 / 2) * (y2 / hypot x2 y2))
      * (y2 / hypot x2 y2))

end

/-- Python's `str.lower()` (`tdoa_server.py` line 226): simple per-character
lowercasing of the string's characters.  (Lean's `String.toLower` is the same
function, but its `String.mapAux` implementation does not reduce in the
kernel, so the embedding lowercases the character list directly.) -/
def lower (s : String) : String := ⟨s.data.map Char.toLower⟩

/-- One decoded wire payload (`json.loads` result, `tdoa_server.py`
line 225): an associative record whose documented fields may each be absent.
A field access on a missing key raises `KeyError` in the source. -/
structure JsonMsg where
  hostname : Option String
  lat : Option ℝ
  lon : Option ℝ
  time : Option ℤ

/-- One incoming datagram as the receive loop classifies it: `invalid`
covers every payload whose processing fails before `json_msg['hostname']`
returns a string (undecodable JSON at line 225, a non-record payload, or a
non-string hostname — all caught by the `except` arms at lines 240..245);
`msg` is a decoded record with arbitrary optional fields. -/
inductive Datagram where
  | invalid : Datagram
  | msg : JsonMsg → Datagram

/-- The configured roster (`tdoa_server.py` line 218). -/
def expected_receivers : List String := ["reciever1", "reciever2", "reciever3"]

/-- The `received_data` dictionary, as a map from identity to the most
recently stored payload. -/
def Registry : Type := String → Option JsonMsg

/-- `received_data = {}` (`tdoa_server.py` line 219). -/
def empty_registry : Registry := fun _ => none

/-- `received_data[host] = json_msg` (`tdoa_server.py` line 232): dictionary
upsert, the later value replacing any earlier one under the same key. -/
def upsert (reg : Registry) (k : String) (j : JsonMsg) : Registry :=
  fun k' => if k' = k then some j else reg k'

/-- `all(rec in received_data for rec in expected_receivers)`
(`tdoa_server.py` line 236). -/
def reg_complete (reg : Registry) : Bool :=
  expected_receivers.all fun name => (reg name).isSome

/-- How one datagram changes `received_data` (`tdoa_server.py`
lines 223..232): an invalid payload changes nothing; a payload without a
`hostname` raises `KeyError` at line 226 before the store; a payload whose
lowercased hostname is off the roster is skipped by the `continue` at
line 230; otherwise line 232 stores the whole record under the lowercased
hostname — note that this store precedes the `lat`/`lon`/`time` accesses of
line 233. -/
def apply_datagram (reg : Registry) : Datagram → Registry
  | .invalid => reg
  | .msg j =>
    match j.hostname with
    | none => reg
    | some hn => if lower hn ∈ expected_receivers then upsert reg (lower hn) j else reg

/-- Whether the stored payload has the three data fields that line 233 reads
after the store. -/
def has_data_fields (j : JsonMsg) : Bool :=
  j.lat.isSome && j.lon.isSome && j.time.isSome

/-- Whether processing the datagram reaches the completion check of
`tdoa_server.py` line 236: only a decoded payload with a roster hostname and
all of `lat`, `lon`, `time` present gets that far — a missing data field
raises `KeyError` in the `print` of line 233, which the handler at line 242
catches, so the round ends without the check (though the store of line 232
has already happened). -/
def reaches_completion_check : Datagram → Bool
  | .invalid => false
  | .msg j =>
    match j.hostname with
    | none => false
    | some hn => decide (lower hn ∈ expected_receivers) && has_data_fields j

/-- The `while True` receive loop of `run_server` (`tdoa_server.py`
lines 221..245) over a finite arrival sequence.  The result lists the
registries passed to `generate_map`: when the completion check of line 236
succeeds the loop invokes `generate_map` once and `break`s, so the list is
`[reg]`; a sequence that never completes the roster yields `[]` (the real
server would block forever waiting for more datagrams). -/
def server_loop : Registry → List Datagram → List Registry
  | _, [] => []
  | reg, d :: rest =>
    if reaches_completion_check d && reg_complete (apply_datagram reg d)
    then [apply_datagram reg d]
    else server_loop (apply_datagram reg d) rest

/-- The registry after processing a whole arrival sequence (no break). -/
def apply_datagrams (reg : Registry) (ds : List Datagram) : Registry :=
  ds.foldl apply_datagram reg

/-- The decoded payloads of an arrival sequence whose lowercased hostname is
a given identity, in arrival order. -/
def reports_for (id : String) (ds : List Datagram) : List JsonMsg :=
  ds.filterMap fun d =>
    match d with
    | .invalid => none
    | .msg j =>
      match j.hostname with
      | none => none
      | some hn => if lower hn = id then some j else none

/-- A concrete well-formed report, used by the witnesses. -/
def sample_report (name : String) (la lo : ℝ) (t : ℤ) : JsonMsg :=
  { hostname := some name, lat := some la, lon := some lo, time := some t }

/-- A concrete arrival sequence for the C5 witness: out of roster order, a
duplicate for `reciever2`, one undecodable datagram, one unknown identity,
and a mixed-case hostname for `reciever1`. -/
def sample_arrivals : List Datagram :=
  [Datagram.msg (sample_report "reciever2" 51.5 (-0.1) 1000),
   Datagram.msg (sample_report "Reciever1" 51.6 (-0.2) 2000),
   Datagram.invalid,
   Datagram.msg (sample_report "reciever2" 51.7 (-0.3) 3000),
   Datagram.msg (sample_report "server9" 0 0 0),
   Datagram.msg (sample_report "reciever3" 51.8 (-0.4) 4000)]

/-- `itertools.combinations(names, 2)` (`tdoa_server.py` line 131): all
unordered pairs, in the source order. -/
def combinations2 {α : Type} : List α → List (α × α)
  | [] => []
  | x :: xs => (xs.map fun y => (x, y)) ++ combinations2 xs

/-- One entry of `hyperbola_list` (`tdoa_server.py` lines 148..153): the
named polyline handed to the rendering collaborator. -/
structure HypEntry where
  pair : String
  pts : List (ℝ × ℝ)
  color : String

/-- `colors = ['red', 'blue', 'green']` (`tdoa_server.py` line 134). -/
def colors : List String := ["red", "blue", "green"]

noncomputable section

/-- The per-pair loop of `generate_map` (`tdoa_server.py` lines 136..155)
over the enumerated pair list.  A missing `time`/`lat`/`lon` field raises
`KeyError` at lines 141..144 — outside the `try` — aborting the whole call
(`none`); a `ValueError` from the engine is caught at line 154 and only that
pair is skipped; a successful pair appends its entry, coloured cyclically
by index. -/
def build_hyperbolas (data : List (String × JsonMsg)) :
    List (ℕ × (String × String)) → Option (List HypEntry)
  | [] => some []
  | (idx, (ref, nonRef)) :: rest =>
    match data.lookup ref, data.lookup nonRef with
    | some jr, some jn =>
      match jr.time, jn.time, jr.lat, jr.lon, jn.lat, jn.lon with
      | some tr, some tn, some latR, some lonR, some latN, some lonN =>
        match compute_hyperbola_local (latR, lonR) (latN, lonN)
            (((tr - tn : ℤ) : ℝ) / 1000000000) 343 1000 with
        | some pts =>
          (build_hyperbolas data rest).map
            (fun l => { pair := ref ++ "_vs_" ++ nonRef, pts := pts,
                        color := colors.getD (idx % colors.length) "" } :: l)
        | none => build_hyperbolas data rest
      | _, _, _, _, _, _ => none
    | _, _ => none

/-- `generate_map` (`tdoa_server.py` lines 116..200), modelled up to the list
of polylines forwarded to the rendering collaborator.  Fewer than two
receivers raises `ValueError` (line 128, `none`); `delta_t` converts the
nanosecond difference to seconds (line 141); `v = 343`, `num_points = 1000`.
The returned `some l` is the `hyperbola_list` the map rendering receives
(when `l` is empty the source returns at line 159 before building a map). -/
def generate_map (data : List (String × JsonMsg)) : Option (List HypEntry) :=
  if data.length < 2 then none
  else build_hyperbolas data (combinations2 (data.map Prod.fst)).enum

end

/-- The UDP payload the detection reporter actually assembles and sends on a
positive detection (`main.py` lines 80..89): the f-string of line 87, with
the formatted timestamp and the GPS stamp string substituted. -/
def detection_message (timestamp gps_stamp : String) : String :=
  "Frequency detected at: " ++ timestamp ++ ", " ++ gps_stamp

/-! ### Geometry of the tangent-plane frame -/

lemma hypot_nonneg (x y : ℝ) : 0 ≤ hypot x y := Real.sqrt_nonneg _

lemma hypot_x_zero (x : ℝ) : hypot x 0 = |x| := by
  simp [hypot, Real.sqrt_sq_eq_abs]

lemma abs_mk_eq_hypot (x y : ℝ) : Complex.abs ⟨x, y⟩ = hypot x y := by
  rw [Complex.abs_apply, Complex.normSq_mk, hypot]
  ring_nf

lemma cos_atan2 (x y : ℝ) (h : 0 < hypot x y) : Real.cos (atan2 y x) = x / hypot x y := by
  have hz : (⟨x, y⟩ : ℂ) ≠ 0 := by
    intro hz
    rw [Complex.ext_iff] at hz
    simp only [Complex.zero_re, Complex.zero_im] at hz
    rw [hz.1, hz.2] at h
    simp [hypot] at h
  rw [atan2, Complex.cos_arg hz, abs_mk_eq_hypot]

lemma sin_atan2 (x y : ℝ) : Real.sin (atan2 y x) = y / hypot x y := by
  rw [atan2, Complex.sin_arg, abs_mk_eq_hypot]

lemma hypot_rot (ct st x y : ℝ) (h : ct ^ 2 + st ^ 2 = 1) :
    hypot (x * ct - y * st) (x * st + y * ct) = hypot x y := by
  unfold hypot
  congr 1
  linear_combination (x ^ 2 + y ^ 2) * h

/-- Distances from a point of the rotated-frame parametrisation to the two
foci `(c, 0)` and `(-c, 0)`: with `b^2 = c^2 - a^2` they are
`c * cosh u ± s * a`. -/
lemma focal_dist (a c s u : ℝ) (ha : 0 ≤ a) (hac : a ≤ c) (hs : s = 1 ∨ s = -1) :
    hypot (s * (a * Real.cosh u) + c) (Real.sqrt (c ^ 2 - a ^ 2) * Real.sinh u)
      = c * Real.cosh u + s * a ∧
    hypot (s * (a * Real.cosh u) - c) (Real.sqrt (c ^ 2 - a ^ 2) * Real.sinh u)
      = c * Real.cosh u - s * a := by
  have hb : Real.sqrt (c ^ 2 - a ^ 2) ^ 2 = c ^ 2 - a ^ 2 :=
    Real.sq_sqrt (by nlinarith)
  have hch : (1 : ℝ) ≤ Real.cosh u := Real.one_le_cosh u
  have hsq : Real.cosh u ^ 2 - Real.sinh u ^ 2 = 1 := Real.cosh_sq_sub_sinh_sq u
  have hs2 : s ^ 2 = 1 := by rcases hs with h | h <;> rw [h] <;> norm_num
  have hsa1 : -a ≤ s * a := by rcases hs with h | h <;> rw [h] <;> nlinarith
  have hsa2 : s * a ≤ a := by rcases hs with h | h <;> rw [h] <;> nlinarith
  have hcc : a ≤ c * Real.cosh u := by nlinarith
  constructor
  · have e1 : (s * (a * Real.cosh u) + c) ^ 2
        + (Real.sqrt (c ^ 2 - a ^ 2) * Real.sinh u) ^ 2
        = (c * Real.cosh u + s * a) ^ 2 := by
      have : (Real.sqrt (c ^ 2 - a ^ 2) * Real.sinh u) ^ 2
          = (c ^ 2 - a ^ 2) * Real.sinh u ^ 2 := by
        rw [mul_pow, hb]
      rw [this]
      linear_combination (a ^ 2 * (Real.cosh u ^ 2 - 1)) * hs2 - (c ^ 2 - a ^ 2) * hsq
    rw [hypot, e1, Real.sqrt_sq_eq_abs, abs_of_nonneg]
    nlinarith [hcc, hsa1]
  · have e1 : (s * (a * Real.cosh u) - c) ^ 2
        + (Real.sqrt (c ^ 2 - a ^ 2) * Real.sinh u) ^ 2
        = (c * Real.cosh u - s * a) ^ 2 := by
      have : (Real.sqrt (c ^ 2 - a ^ 2) * Real.sinh u) ^ 2
          = (c ^ 2 - a ^ 2) * Real.sinh u ^ 2 := by
        rw [mul_pow, hb]
      rw [this]
      linear_combination (a ^ 2 * (Real.cosh u ^ 2 - 1)) * hs2 - (c ^ 2 - a ^ 2) * hsq
    rw [hypot, e1, Real.sqrt_sq_eq_abs, abs_of_nonneg]
    nlinarith [hcc, hsa2]

lemma x_prime_cases (delta_d a u : ℝ) :
    ∃ s, (s = 1 ∨ s = -1) ∧ x_prime delta_d a u = s * (a * Real.cosh u) := by
  unfold x_prime
  by_cases h : delta_d < 0
  · exact ⟨-1, Or.inr rfl, by rw [if_pos h]; ring⟩
  · exact ⟨1, Or.inl rfl, by rw [if_neg h]; ring⟩

lemma x_prime_neg (delta_d a u : ℝ) (h : delta_d ≠ 0) :
    x_prime (-delta_d) a u = -(x_prime delta_d a u) := by
  unfold x_prime
  by_cases h1 : delta_d < 0
  · rw [if_pos h1, if_neg (by linarith : ¬(-delta_d < 0))]
    ring
  · have h2 : 0 < delta_d := lt_of_le_of_ne (not_lt.mp h1) (Ne.symm h)
    rw [if_neg h1, if_pos (by linarith : -delta_d < 0)]

/-- Each sample of the regular branch is at distance difference exactly
`|delta_d|` from the two projected receivers `(0, 0)` and `(x2, y2)`. -/
lemma branch_point_dist (x2 y2 delta_d u : ℝ)
    (hpos : 0 < |delta_d|) (hle : |delta_d| ≤ hypot x2 y2) :
    |hypot
        (x_prime delta_d (|delta_d| / 2) u * Real.cos (atan2 y2 x2)
          - Real.sqrt ((hypot x2 y2 / 2) ^ 2 - (|delta_d| / 2) ^ 2) * Real.sinh u
            * Real.sin (atan2 y2 x2) + x2 / 2)
        (x_prime delta_d (|delta_d| / 2) u * Real.sin (atan2 y2 x2)
          + Real.sqrt ((hypot x2 y2 / 2) ^ 2 - (|delta_d| / 2) ^ 2) * Real.sinh u
            * Real.cos (atan2 y2 x2) + y2 / 2)
      - hypot
        (x_prime delta_d (|delta_d| / 2) u * Real.cos (atan2 y2 x2)
          - Real.sqrt ((hypot x2 y2 / 2) ^ 2 - (|delta_d| / 2) ^ 2) * Real.sinh u
            * Real.sin (atan2 y2 x2) + x2 / 2 - x2)
        (x_prime delta_d (|delta_d| / 2) u * Real.sin (atan2 y2 x2)
          + Real.sqrt ((hypot x2 y2 / 2) ^ 2 - (|delta_d| / 2) ^ 2) * Real.sinh u
            * Real.cos (atan2 y2 x2) + y2 / 2 - y2)|
      = |delta_d| := by
  have hd : 0 < hypot x2 y2 := lt_of_lt_of_le hpos hle
  have hct : Real.cos (atan2 y2 x2) = x2 / hypot x2 y2 := cos_atan2 x2 y2 hd
  have hst : Real.sin (atan2 y2 x2) = y2 / hypot x2 y2 := sin_atan2 x2 y2
  obtain ⟨s, hs, hxp⟩ := x_prime_cases delta_d (|delta_d| / 2) u
  set ct := Real.cos (atan2 y2 x2)
  set st := Real.sin (atan2 y2 x2)
  have hcs : ct ^ 2 + st ^ 2 = 1 := by
    rw [add_comm]; exact Real.sin_sq_add_cos_sq (atan2 y2 x2)
  set a := |delta_d| / 2 with ha_def
  set c := hypot x2 y2 / 2 with hc_def
  set b := Real.sqrt (c ^ 2 - a ^ 2) with hb_def
  have ha : 0 ≤ a := by positivity
  have hac : a ≤ c := by
    rw [ha_def, hc_def]; linarith
  have hne : hypot x2 y2 ≠ 0 := ne_of_gt hd
  have hx2' : c * ct = x2 / 2 := by
    rw [hc_def, hct]; field_simp; ring
  have hy2' : c * st = y2 / 2 := by
    rw [hc_def, hst]; field_simp; ring
  have hA : x_prime delta_d a u * ct - b * Real.sinh u * st + x2 / 2
      = (s * (a * Real.cosh u) + c) * ct - (b * Real.sinh u) * st := by
    rw [hxp]; linear_combination -hx2'
  have hB : x_prime delta_d a u * st + b * Real.sinh u * ct + y2 / 2
      = (s * (a * Real.cosh u) + c) * st + (b * Real.sinh u) * ct := by
    rw [hxp]; linear_combination -hy2'
  have hA' : x_prime delta_d a u * ct - b * Real.sinh u * st + x2 / 2 - x2
      = (s * (a * Real.cosh u) - c) * ct - (b * Real.sinh u) * st := by
    rw [hxp]; linear_combination hx2'
  have hB' : x_prime delta_d a u * st + b * Real.sinh u * ct + y2 / 2 - y2
      = (s * (a * Real.cosh u) - c) * st + (b * Real.sinh u) * ct := by
    rw [hxp]; linear_combination hy2'
  rw [hA', hB', hA, hB, hypot_rot _ _ _ _ hcs, hypot_rot _ _ _ _ hcs]
  obtain ⟨e1, e2⟩ := focal_dist a c s u ha hac hs
  rw [e1, e2]
  have h2sa : c * Real.cosh u + s * a - (c * Real.cosh u - s * a) = 2 * (s * a) := by ring
  rw [h2sa]
  rcases hs with h | h <;> rw [h, ha_def]
  · have : 2 * (1 * (|delta_d| / 2)) = |delta_d| := by ring
    rw [this, abs_abs]
  · have : 2 * (-1 * (|delta_d| / 2)) = -|delta_d| := by ring
    rw [this, abs_neg, abs_abs]

/-- Each sample of the `a == 0` branch is equidistant from the two projected
receivers. -/
lemma bisector_equidistant (x2 y2 : ℝ) (n : ℕ) (p : ℝ × ℝ)
    (hp : p ∈ bisector_points x2 y2 n) :
    hypot p.1 p.2 = hypot (p.1 - x2) (p.2 - y2) := by
  unfold bisector_points at hp
  by_cases hy : y2 = 0
  · rw [if_pos hy] at hp
    obtain ⟨t, _, rfl⟩ := List.mem_map.mp hp
    subst hy
    unfold hypot
    congr 1
    ring
  · rw [if_neg hy] at hp
    by_cases hx : x2 = 0
    · rw [if_pos hx] at hp
      obtain ⟨t, _, rfl⟩ := List.mem_map.mp hp
      subst hx
      unfold hypot
      congr 1
      ring
    · rw [if_neg hx] at hp
      obtain ⟨t, _, rfl⟩ := List.mem_map.mp hp
      unfold hypot
      congr 1
      field_simp
      ring

/-- Negating `delta_d` reflects each sample of the regular branch across the
perpendicular bisector of the projected baseline. -/
lemma reflect_branch_point (x2 y2 delta_d u : ℝ)
    (hpos : 0 < |delta_d|) (hle : |delta_d| ≤ hypot x2 y2) :
    (x_prime (-delta_d) (|delta_d| / 2) u * Real.cos (atan2 y2 x2)
        - Real.sqrt ((hypot x2 y2 / 2) ^ 2 - (|delta_d| / 2) ^ 2) * Real.sinh u
          * Real.sin (atan2 y2 x2) + x2 / 2,
      x_prime (-delta_d) (|delta_d| / 2) u * Real.sin (atan2 y2 x2)
        + Real.sqrt ((hypot x2 y2 / 2) ^ 2 - (|delta_d| / 2) ^ 2) * Real.sinh u
          * Real.cos (atan2 y2 x2) + y2 / 2)
      = reflect_bisector x2 y2
        (x_prime delta_d (|delta_d| / 2) u * Real.cos (atan2 y2 x2)
            - Real.sqrt ((hypot x2 y2 / 2) ^ 2 - (|delta_d| / 2) ^ 2) * Real.sinh u
              * Real.sin (atan2 y2 x2) + x2 / 2,
          x_prime delta_d (|delta_d| / 2) u * Real.sin (atan2 y2 x2)
            + Real.sqrt ((hypot x2 y2 / 2) ^ 2 - (|delta_d| / 2) ^ 2) * Real.sinh u
              * Real.cos (atan2 y2 x2) + y2 / 2) := by
  have hd : 0 < hypot x2 y2 := lt_of_lt_of_le hpos hle
  have hct : Real.cos (atan2 y2 x2) = x2 / hypot x2 y2 := cos_atan2 x2 y2 hd
  have hst : Real.sin (atan2 y2 x2) = y2 / hypot x2 y2 := sin_atan2 x2 y2
  have hdd : delta_d ≠ 0 := by
    intro h; rw [h] at hpos; simp at hpos
  rw [x_prime_neg _ _ _ hdd]
  unfold reflect_bisector
  rw [← hct, ← hst]
  set ct := Real.cos (atan2 y2 x2)
  set st := Real.sin (atan2 y2 x2)
  have hcs : ct ^ 2 + st ^ 2 = 1 := by
    rw [add_comm]; exact Real.sin_sq_add_cos_sq (atan2 y2 x2)
  set xp := x_prime delta_d (|delta_d| / 2) u
  set ys := Real.sqrt ((hypot x2 y2 / 2) ^ 2 - (|delta_d| / 2) ^ 2) * Real.sinh u
  have h1 : -xp * ct - ys * st + x2 / 2
      = xp * ct - ys * st + x2 / 2
        - 2 * ((xp * ct - ys * st + x2 / 2 - x2 / 2) * ct
          + (xp * st + ys * ct + y2 / 2 - y2 / 2) * st) * ct := by
    linear_combination (2 * xp * ct) * hcs
  have h2 : -xp * st + ys * ct + y2 / 2
      = xp * st + ys * ct + y2 / 2
        - 2 * ((xp * ct - ys * st + x2 / 2 - x2 / 2) * ct
          + (xp * st + ys * ct + y2 / 2 - y2 / 2) * st) * st := by
    linear_combination (2 * xp * st) * hcs
  simp only [Prod.mk.injEq]
  refine ⟨by rw [← h1], by rw [← h2]⟩

lemma linspace_length (lo hi : ℝ) (n : ℕ) : (linspace lo hi n).length = n := by
  unfold linspace
  rw [List.length_map, List.length_range]

/-! ### Claims about the hyperbola engine -/

/-- C1: for every pair of receiver geocoordinates, every `delta_t ≠ 0` and
every speed `v` with `|delta_t * v|` at most the tangent-plane baseline
distance, every point of the sequence `compute_hyperbola_local` returns
satisfies, in the local tangent-plane frame, that the absolute difference of
its distances to the two projected receivers equals `|delta_t * v|` exactly
(so in particular within numerical tolerance). -/
theorem locus_distance_spec (R1 R2 : ℝ × ℝ) (delta_t v : ℝ) (n : ℕ)
    (hdt : delta_t ≠ 0) (hle : |delta_t * v| ≤ baseline_dist R1 R2) :
    compute_hyperbola_local R1 R2 delta_t v n
        = some ((hyperbola_xy R1 R2 delta_t v n).map (to_latlon R1 R2)) ∧
    ∀ p ∈ hyperbola_xy R1 R2 delta_t v n,
      |local_dist p (0, 0) - local_dist p (projected_R2 R1 R2)| = |delta_t * v| := by
  constructor
  · unfold compute_hyperbola_local
    rw [if_neg (not_lt.mpr hle)]
  · intro p hp
    unfold hyperbola_xy at hp
    by_cases ha : |delta_t * v| / 2 = 0
    · rw [if_pos ha] at hp
      have h0 : |delta_t * v| = 0 := by linarith [abs_nonneg (delta_t * v)]
      have heq := bisector_equidistant _ _ n p hp
      have e1 : local_dist p (0, 0) = hypot p.1 p.2 := by simp [local_dist]
      have e2 : local_dist p (projected_R2 R1 R2)
          = hypot (p.1 - (projected_R2 R1 R2).1) (p.2 - (projected_R2 R1 R2).2) := rfl
      rw [e1, e2, heq, sub_self, abs_zero, h0]
    · rw [if_neg ha] at hp
      unfold branch_points at hp
      obtain ⟨u, _, rfl⟩ := List.mem_map.mp hp
      have hpos : 0 < |delta_t * v| :=
        lt_of_le_of_ne (abs_nonneg _) (fun h => ha (by rw [← h]; norm_num))
      have key := branch_point_dist (projected_R2 R1 R2).1 (projected_R2 R1 R2).2
        (delta_t * v) u hpos hle
      simpa [local_dist] using key

/-- C3: `compute_hyperbola_local` signals the domain error (the raised
`ValueError`, here the `none` result) exactly when `|delta_t * v|` exceeds
the projected baseline distance, and the `none` result carries no points. -/
theorem domain_error_iff (R1 R2 : ℝ × ℝ) (delta_t v : ℝ) (n : ℕ) :
    compute_hyperbola_local R1 R2 delta_t v n = none
      ↔ |delta_t * v| > baseline_dist R1 R2 := by
  unfold compute_hyperbola_local
  by_cases h : |delta_t * v| > baseline_dist R1 R2
  · simp [h]
  · simp [h]

/-- C4: with `delta_t = 0` the engine returns the sampled perpendicular
bisector: the result is a full point list, every returned point is exactly
equidistant from the two projected receivers, and the baseline-parallel
(`dy = 0`) and baseline-perpendicular (`dx = 0`) orientations are exact
vertical resp. horizontal lines through the baseline midpoint. -/
theorem zero_delta_bisector (R1 R2 : ℝ × ℝ) (delta_t v : ℝ) (n : ℕ)
    (hne : R1 ≠ R2) (hdt : delta_t = 0) :
    compute_hyperbola_local R1 R2 delta_t v n
        = some ((hyperbola_xy R1 R2 delta_t v n).map (to_latlon R1 R2)) ∧
    (∀ p ∈ hyperbola_xy R1 R2 delta_t v n,
      local_dist p (0, 0) = local_dist p (projected_R2 R1 R2)) ∧
    ((projected_R2 R1 R2).2 = 0 →
      ∀ p ∈ hyperbola_xy R1 R2 delta_t v n, p.1 = (projected_R2 R1 R2).1 / 2) ∧
    ((projected_R2 R1 R2).1 = 0 → (projected_R2 R1 R2).2 ≠ 0 →
      ∀ p ∈ hyperbola_xy R1 R2 delta_t v n, p.2 = (projected_R2 R1 R2).2 / 2) := by
  subst hdt
  have hz : |(0 : ℝ) * v| / 2 = 0 := by simp
  have hxy : hyperbola_xy R1 R2 0 v n
      = bisector_points (projected_R2 R1 R2).1 (projected_R2 R1 R2).2 n := by
    unfold hyperbola_xy
    rw [if_pos hz]
  refine ⟨?_, ?_, ?_, ?_⟩
  · unfold compute_hyperbola_local
    rw [if_neg (by simp only [zero_mul, abs_zero, gt_iff_lt, not_lt]; exact hypot_nonneg _ _)]
  · intro p hp
    rw [hxy] at hp
    simpa [local_dist] using bisector_equidistant _ _ n p hp
  · intro hy p hp
    rw [hxy] at hp
    unfold bisector_points at hp
    rw [if_pos hy] at hp
    obtain ⟨t, _, rfl⟩ := List.mem_map.mp hp
    rfl
  · intro hx hy p hp
    rw [hxy] at hp
    unfold bisector_points at hp
    rw [if_neg hy, if_pos hx] at hp
    obtain ⟨t, _, rfl⟩ := List.mem_map.mp hp
    rfl

/-- C9: at the exact boundary `|delta_t * v| = d` with `d > 0` the strict
inequality of the validity test does not fire: the engine returns a
full-length point list, the semi-minor axis `b = sqrt (c^2 - a^2)` is zero,
and every sample lies on the straight line through the two projected
receivers (cross product with the baseline direction vanishes). -/
theorem boundary_collinear (R1 R2 : ℝ × ℝ) (delta_t v : ℝ) (n : ℕ)
    (heq : |delta_t * v| = baseline_dist R1 R2) (hd : 0 < baseline_dist R1 R2) :
    compute_hyperbola_local R1 R2 delta_t v n
        = some ((hyperbola_xy R1 R2 delta_t v n).map (to_latlon R1 R2)) ∧
    ((hyperbola_xy R1 R2 delta_t v n).map (to_latlon R1 R2)).length = n ∧
    Real.sqrt ((baseline_dist R1 R2 / 2) ^ 2 - (|delta_t * v| / 2) ^ 2) = 0 ∧
    ∀ p ∈ hyperbola_xy R1 R2 delta_t v n,
      p.1 * (projected_R2 R1 R2).2 = p.2 * (projected_R2 R1 R2).1 := by
  have hpos : 0 < |delta_t * v| := by rw [heq]; exact hd
  have ha : |delta_t * v| / 2 ≠ 0 := (div_pos hpos (by norm_num)).ne'
  have hxy : hyperbola_xy R1 R2 delta_t v n
      = branch_points (projected_R2 R1 R2).1 (projected_R2 R1 R2).2 (delta_t * v) n := by
    unfold hyperbola_xy
    rw [if_neg ha]
  have hbd : baseline_dist R1 R2
      = hypot (projected_R2 R1 R2).1 (projected_R2 R1 R2).2 := rfl
  have hb0 : Real.sqrt ((hypot (projected_R2 R1 R2).1 (projected_R2 R1 R2).2 / 2) ^ 2
      - (|delta_t * v| / 2) ^ 2) = 0 := by
    rw [heq, hbd, sub_self, Real.sqrt_zero]
  refine ⟨?_, ?_, ?_, ?_⟩
  · unfold compute_hyperbola_local
    rw [if_neg (not_lt.mpr (le_of_eq heq))]
  · rw [List.length_map, hxy]
    unfold branch_points
    rw [List.length_map, linspace_length]
  · rw [heq, sub_self, Real.sqrt_zero]
  · intro p hp
    rw [hxy] at hp
    unfold branch_points at hp
    obtain ⟨u, _, rfl⟩ := List.mem_map.mp hp
    rw [hb0]
    have hdh : 0 < hypot (projected_R2 R1 R2).1 (projected_R2 R1 R2).2 := hd
    have hne : hypot (projected_R2 R1 R2).1 (projected_R2 R1 R2).2 ≠ 0 := ne_of_gt hdh
    rw [cos_atan2 _ _ hdh, sin_atan2]
    field_simp
    ring

/-- C8: for `0 < |delta_t * v| ≤ d`, negating `delta_t` maps the sample
sequence pointwise to its mirror image across the perpendicular bisector of
the projected baseline — the branch selection is tied to the sign of
`delta_t` — and the engine still succeeds on `-delta_t`, returning the
reflected sequence. -/
theorem negated_delta_mirror (R1 R2 : ℝ × ℝ) (delta_t v : ℝ) (n : ℕ)
    (hpos : 0 < |delta_t * v|) (hle : |delta_t * v| ≤ baseline_dist R1 R2) :
    hyperbola_xy R1 R2 (-delta_t) v n
        = (hyperbola_xy R1 R2 delta_t v n).map
            (reflect_bisector (projected_R2 R1 R2).1 (projected_R2 R1 R2).2) ∧
    compute_hyperbola_local R1 R2 (-delta_t) v n
        = some (((hyperbola_xy R1 R2 delta_t v n).map
            (reflect_bisector (projected_R2 R1 R2).1 (projected_R2 R1 R2).2)).map
              (to_latlon R1 R2)) := by
  have hneg : -delta_t * v = -(delta_t * v) := by ring
  have ha : |delta_t * v| / 2 ≠ 0 := (div_pos hpos (by norm_num)).ne'
  have ha' : |(-delta_t) * v| / 2 ≠ 0 := by
    rw [hneg, abs_neg]
    exact ha
  have hmain : hyperbola_xy R1 R2 (-delta_t) v n
      = (hyperbola_xy R1 R2 delta_t v n).map
          (reflect_bisector (projected_R2 R1 R2).1 (projected_R2 R1 R2).2) := by
    unfold hyperbola_xy
    rw [if_neg ha', if_neg ha]
    unfold branch_points
    rw [List.map_map]
    apply List.map_congr_left
    intro u _
    simp only [Function.comp_apply, hneg, abs_neg]
    exact reflect_branch_point (projected_R2 R1 R2).1 (projected_R2 R1 R2).2
      (delta_t * v) u hpos hle
  refine ⟨hmain, ?_⟩
  unfold compute_hyperbola_local
  rw [if_neg (by rw [hneg, abs_neg]; exact not_lt.mpr hle), hmain]

/-! ### Concrete equator instances for the witnesses -/

lemma mean_lat_equator (lon1 lon2 : ℝ) : mean_lat (0, lon1) (0, lon2) = 0 := by
  simp [mean_lat, radians]

lemma m_per_deg_lon_zero : m_per_deg_lon 0 = 111319.458 := by
  unfold m_per_deg_lon
  norm_num [Real.cos_zero]

lemma m_per_deg_lat_zero : m_per_deg_lat 0 = 110574.2727 := by
  unfold m_per_deg_lat
  norm_num [Real.cos_zero]

lemma projected_equator (lon1 lon2 : ℝ) :
    projected_R2 (0, lon1) (0, lon2) = ((lon2 - lon1) * 111319.458, 0) := by
  unfold projected_R2
  rw [mean_lat_equator, m_per_deg_lon_zero, m_per_deg_lat_zero]
  norm_num

lemma baseline_equator (lon1 lon2 : ℝ) :
    baseline_dist (0, lon1) (0, lon2) = |(lon2 - lon1) * 111319.458| := by
  unfold baseline_dist
  rw [projected_equator]
  exact hypot_x_zero _

/-- Witness for C1, at the specification's end-to-end example: receivers
`(0, 0)` and `(0, 0.001)` on the equator, `delta_t = 0.0003 s`,
`v = 343 m/s`, so `|delta_t * v| = 0.1029 m ≤ d ≈ 111.32 m`. -/
theorem locus_distance_spec_witness :
    ((0.0003 : ℝ) ≠ 0) ∧ |(0.0003 : ℝ) * 343| ≤ baseline_dist (0, 0) (0, 0.001) ∧
    (compute_hyperbola_local (0, 0) (0, 0.001) 0.0003 343 1000
        = some ((hyperbola_xy (0, 0) (0, 0.001) 0.0003 343 1000).map
            (to_latlon (0, 0) (0, 0.001))) ∧
      ∀ p ∈ hyperbola_xy (0, 0) (0, 0.001) 0.0003 343 1000,
        |local_dist p (0, 0) - local_dist p (projected_R2 (0, 0) (0, 0.001))|
          = |(0.0003 : ℝ) * 343|) := by
  have h1 : (0.0003 : ℝ) ≠ 0 := by norm_num
  have h2 : |(0.0003 : ℝ) * 343| ≤ baseline_dist (0, 0) (0, 0.001) := by
    rw [baseline_equator]
    rw [abs_of_nonneg (by norm_num : (0 : ℝ) ≤ 0.0003 * 343),
      abs_of_nonneg (by norm_num : (0 : ℝ) ≤ ((0.001 : ℝ) - 0) * 111319.458)]
    norm_num
  exact ⟨h1, h2, locus_distance_spec (0, 0) (0, 0.001) 0.0003 343 1000 h1 h2⟩

/-- Witness for C4: distinct equatorial receivers, `delta_t = 0`. -/
theorem zero_delta_bisector_witness :
    (((0 : ℝ), (0 : ℝ)) ≠ ((0 : ℝ), (0.001 : ℝ))) ∧
    (compute_hyperbola_local (0, 0) (0, 0.001) 0 343 1000
        = some ((hyperbola_xy (0, 0) (0, 0.001) 0 343 1000).map
            (to_latlon (0, 0) (0, 0.001))) ∧
      (∀ p ∈ hyperbola_xy (0, 0) (0, 0.001) 0 343 1000,
        local_dist p (0, 0) = local_dist p (projected_R2 (0, 0) (0, 0.001))) ∧
      ((projected_R2 (0, 0) (0, 0.001)).2 = 0 →
        ∀ p ∈ hyperbola_xy (0, 0) (0, 0.001) 0 343 1000,
          p.1 = (projected_R2 (0, 0) (0, 0.001)).1 / 2) ∧
      ((projected_R2 (0, 0) (0, 0.001)).1 = 0 → (projected_R2 (0, 0) (0, 0.001)).2 ≠ 0 →
        ∀ p ∈ hyperbola_xy (0, 0) (0, 0.001) 0 343 1000,
          p.2 = (projected_R2 (0, 0) (0, 0.001)).2 / 2)) := by
  have h1 : (((0 : ℝ), (0 : ℝ)) : ℝ × ℝ) ≠ ((0 : ℝ), (0.001 : ℝ)) := by
    intro h
    rw [Prod.mk.injEq] at h
    norm_num at h
  exact ⟨h1, zero_delta_bisector (0, 0) (0, 0.001) 0 343 1000 h1 rfl⟩

/-- Witness for C9: with `v = 111.319458` and `delta_t = 1` the product
equals the equatorial baseline of `(0, 0)`–`(0, 0.001)` exactly. -/
theorem boundary_collinear_witness :
    (|(1 : ℝ) * 111.319458| = baseline_dist (0, 0) (0, 0.001)) ∧
    (0 < baseline_dist (0, 0) (0, 0.001)) ∧
    (compute_hyperbola_local (0, 0) (0, 0.001) 1 111.319458 17
        = some ((hyperbola_xy (0, 0) (0, 0.001) 1 111.319458 17).map
            (to_latlon (0, 0) (0, 0.001))) ∧
      ((hyperbola_xy (0, 0) (0, 0.001) 1 111.319458 17).map
          (to_latlon (0, 0) (0, 0.001))).length = 17 ∧
      Real.sqrt ((baseline_dist (0, 0) (0, 0.001) / 2) ^ 2
          - (|(1 : ℝ) * 111.319458| / 2) ^ 2) = 0 ∧
      ∀ p ∈ hyperbola_xy (0, 0) (0, 0.001) 1 111.319458 17,
        p.1 * (projected_R2 (0, 0) (0, 0.001)).2
          = p.2 * (projected_R2 (0, 0) (0, 0.001)).1) := by
  have h1 : |(1 : ℝ) * 111.319458| = baseline_dist (0, 0) (0, 0.001) := by
    rw [baseline_equator]
    rw [abs_of_nonneg (by norm_num : (0 : ℝ) ≤ 1 * 111.319458),
      abs_of_nonneg (by norm_num : (0 : ℝ) ≤ ((0.001 : ℝ) - 0) * 111319.458)]
    norm_num
  have h2 : 0 < baseline_dist (0, 0) (0, 0.001) := by
    rw [baseline_equator]
    rw [abs_of_nonneg (by norm_num : (0 : ℝ) ≤ ((0.001 : ℝ) - 0) * 111319.458)]
    norm_num
  exact ⟨h1, h2, boundary_collinear (0, 0) (0, 0.001) 1 111.319458 17 h1 h2⟩

/-- Witness for C8, at the same configuration as the C1 witness. -/
theorem negated_delta_mirror_witness :
    (0 < |(0.0003 : ℝ) * 343|) ∧ |(0.0003 : ℝ) * 343| ≤ baseline_dist (0, 0) (0, 0.001) ∧
    (hyperbola_xy (0, 0) (0, 0.001) (-0.0003) 343 1000
        = (hyperbola_xy (0, 0) (0, 0.001) 0.0003 343 1000).map
            (reflect_bisector (projected_R2 (0, 0) (0, 0.001)).1
              (projected_R2 (0, 0) (0, 0.001)).2) ∧
      compute_hyperbola_local (0, 0) (0, 0.001) (-0.0003) 343 1000
        = some (((hyperbola_xy (0, 0) (0, 0.001) 0.0003 343 1000).map
            (reflect_bisector (projected_R2 (0, 0) (0, 0.001)).1
              (projected_R2 (0, 0) (0, 0.001)).2)).map
                (to_latlon (0, 0) (0, 0.001)))) := by
  have h1 : 0 < |(0.0003 : ℝ) * 343| := by
    rw [abs_of_nonneg (by norm_num : (0 : ℝ) ≤ 0.0003 * 343)]
    norm_num
  have h2 : |(0.0003 : ℝ) * 343| ≤ baseline_dist (0, 0) (0, 0.001) := by
    rw [baseline_equator]
    rw [abs_of_nonneg (by norm_num : (0 : ℝ) ≤ 0.0003 * 343),
      abs_of_nonneg (by norm_num : (0 : ℝ) ≤ ((0.001 : ℝ) - 0) * 111319.458)]
    norm_num
  exact ⟨h1, h2, negated_delta_mirror (0, 0) (0, 0.001) 0.0003 343 1000 h1 h2⟩

/-! ### The aggregation server's receive loop -/

lemma apply_datagram_invalid (reg : Registry) : apply_datagram reg Datagram.invalid = reg := rfl

lemma apply_datagram_msg_none (reg : Registry) (j : JsonMsg) (h : j.hostname = none) :
    apply_datagram reg (Datagram.msg j) = reg := by
  simp only [apply_datagram, h]

lemma apply_datagram_msg_some (reg : Registry) (j : JsonMsg) (hn : String)
    (h : j.hostname = some hn) :
    apply_datagram reg (Datagram.msg j)
      = if lower hn ∈ expected_receivers then upsert reg (lower hn) j else reg := by
  simp only [apply_datagram, h]

lemma reaches_completion_check_msg_some (j : JsonMsg) (hn : String) (h : j.hostname = some hn) :
    reaches_completion_check (Datagram.msg j)
      = (decide (lower hn ∈ expected_receivers) && has_data_fields j) := by
  simp only [reaches_completion_check, h]

lemma server_loop_cons (reg : Registry) (d : Datagram) (rest : List Datagram) :
    server_loop reg (d :: rest)
      = if reaches_completion_check d && reg_complete (apply_datagram reg d)
        then [apply_datagram reg d]
        else server_loop (apply_datagram reg d) rest := rfl

lemma reports_for_cons_invalid (id : String) (rest : List Datagram) :
    reports_for id (Datagram.invalid :: rest) = reports_for id rest := rfl

lemma reports_for_cons_none (id : String) (j : JsonMsg) (rest : List Datagram)
    (h : j.hostname = none) :
    reports_for id (Datagram.msg j :: rest) = reports_for id rest := by
  simp only [reports_for, List.filterMap_cons, h]

lemma reports_for_cons_some (id : String) (j : JsonMsg) (hn : String) (rest : List Datagram)
    (h : j.hostname = some hn) :
    reports_for id (Datagram.msg j :: rest)
      = if lower hn = id then j :: reports_for id rest else reports_for id rest := by
  by_cases heq : lower hn = id
  · rw [if_pos heq]
    simp only [reports_for, List.filterMap_cons, h, if_pos heq]
  · rw [if_neg heq]
    simp only [reports_for, List.filterMap_cons, h, if_neg heq]

lemma upsert_same (reg : Registry) (k : String) (j : JsonMsg) : upsert reg k j k = some j := by
  simp [upsert]

lemma upsert_other (reg : Registry) (k k' : String) (j : JsonMsg) (h : k' ≠ k) :
    upsert reg k j k' = reg k' := by
  simp [upsert, h]

lemma getLast?_cons_or {α : Type} (a : α) (l : List α) :
    (a :: l).getLast? = l.getLast?.or (some a) := by
  cases l with
  | nil => rfl
  | cons b t =>
    rw [List.getLast?_cons_cons]
    obtain ⟨x, hx⟩ := Option.isSome_iff_exists.mp (List.getLast?_isSome.mpr (List.cons_ne_nil b t))
    rw [hx]
    rfl

/-- After any arrival sequence, the registry's entry for a roster identity is
the most recently received report for that identity (or the starting entry
when none arrived): the dictionary upsert makes the latest report win. -/
lemma lookup_apply_datagrams (ds : List Datagram) :
    ∀ reg : Registry, ∀ id : String, id ∈ expected_receivers →
    apply_datagrams reg ds id = ((reports_for id ds).getLast?).or (reg id) := by
  induction ds with
  | nil => intro reg id _; rfl
  | cons d rest ih =>
    intro reg id hid
    have hfold : apply_datagrams reg (d :: rest) = apply_datagrams (apply_datagram reg d) rest := rfl
    rw [hfold, ih (apply_datagram reg d) id hid]
    cases d with
    | invalid =>
      rw [reports_for_cons_invalid, apply_datagram_invalid]
    | msg j =>
      cases hhn : j.hostname with
      | none =>
        rw [reports_for_cons_none id j rest hhn, apply_datagram_msg_none reg j hhn]
      | some hn =>
        by_cases heq : lower hn = id
        · rw [reports_for_cons_some id j hn rest hhn, if_pos heq,
            apply_datagram_msg_some reg j hn hhn]
          rw [heq, if_pos hid, upsert_same, getLast?_cons_or, Option.or_assoc]
          rfl
        · rw [reports_for_cons_some id j hn rest hhn, if_neg heq,
            apply_datagram_msg_some reg j hn hhn]
          by_cases hmem : lower hn ∈ expected_receivers
          · rw [if_pos hmem, upsert_other reg (lower hn) id j (fun h => heq h.symm)]
          · rw [if_neg hmem]

/-- Only an accepted roster report can turn an incomplete registry into a
complete one. -/
lemma accepted_of_completes (reg : Registry) (d : Datagram)
    (h0 : reg_complete reg = false) (h1 : reg_complete (apply_datagram reg d) = true) :
    ∃ j hn, d = Datagram.msg j ∧ j.hostname = some hn ∧ lower hn ∈ expected_receivers := by
  cases d with
  | invalid =>
    rw [apply_datagram_invalid, h0] at h1
    cases h1
  | msg j =>
    cases hhn : j.hostname with
    | none =>
      rw [apply_datagram_msg_none reg j hhn, h0] at h1
      cases h1
    | some hn =>
      by_cases hmem : lower hn ∈ expected_receivers
      · exact ⟨j, hn, rfl, hhn, hmem⟩
      · rw [apply_datagram_msg_some reg j hn hhn, if_neg hmem, h0] at h1
        cases h1

/-- The receive loop either never completes the roster (no aggregation pass),
or performs exactly one pass, at the first prefix whose registry is complete.
The data-field hypothesis restricts the arrivals to well-formed reports, so
that the completion check of line 236 is actually reached in the round that
completes the roster. -/
lemma server_loop_spec (ds : List Datagram) :
    ∀ reg : Registry,
    (∀ j, Datagram.msg j ∈ ds → has_data_fields j = true) →
    reg_complete reg = false →
    (server_loop reg ds = [] ∧
      ∀ k, k ≤ ds.length → reg_complete (apply_datagrams reg (ds.take k)) = false)
    ∨ (∃ k, 0 < k ∧ k ≤ ds.length
        ∧ server_loop reg ds = [apply_datagrams reg (ds.take k)]
        ∧ reg_complete (apply_datagrams reg (ds.take k)) = true
        ∧ ∀ m, m < k → reg_complete (apply_datagrams reg (ds.take m)) = false) := by
  induction ds with
  | nil =>
    intro reg _ hreg
    left
    refine ⟨rfl, ?_⟩
    intro k hk
    have hk0 : k = 0 := Nat.le_zero.mp (by simpa using hk)
    subst hk0
    exact hreg
  | cons d rest ih =>
    intro reg hfields hreg
    by_cases hc : reg_complete (apply_datagram reg d) = true
    · obtain ⟨j, hn, hd, hhn, hmem⟩ := accepted_of_completes reg d hreg hc
      have hcheck : reaches_completion_check d = true := by
        rw [hd, reaches_completion_check_msg_some j hn hhn, Bool.and_eq_true]
        exact ⟨decide_eq_true hmem, hfields j (by rw [hd]; exact List.mem_cons_self _ _)⟩
      right
      refine ⟨1, Nat.one_pos, Nat.succ_le_succ (Nat.zero_le _), ?_, ?_, ?_⟩
      · rw [server_loop_cons, hcheck, hc]
        rfl
      · exact hc
      · intro m hm
        have hm0 : m = 0 := Nat.lt_one_iff.mp hm
        subst hm0
        exact hreg
    · have hc' : reg_complete (apply_datagram reg d) = false := by
        cases h : reg_complete (apply_datagram reg d)
        · rfl
        · exact absurd h hc
      have hstep : server_loop reg (d :: rest) = server_loop (apply_datagram reg d) rest := by
        rw [server_loop_cons, hc', Bool.and_false]
        rfl
      have hfields' : ∀ j, Datagram.msg j ∈ rest → has_data_fields j = true := by
        intro j hj
        exact hfields j (List.mem_cons_of_mem d hj)
      rcases ih (apply_datagram reg d) hfields' hc' with
        ⟨hloop, hall⟩ | ⟨k, hk0, hkle, hloop, hcomp, hmin⟩
      · left
        refine ⟨by rw [hstep]; exact hloop, ?_⟩
        intro k hk
        match k with
        | 0 => exact hreg
        | Nat.succ m =>
          rw [List.take_succ_cons]
          exact hall m (Nat.le_of_succ_le_succ hk)
      · right
        refine ⟨k + 1, Nat.succ_pos k, Nat.succ_le_succ hkle, ?_, ?_, ?_⟩
        · rw [hstep, List.take_succ_cons]
          exact hloop
        · rw [List.take_succ_cons]
          exact hcomp
        · intro m hm
          match m with
          | 0 => exact hreg
          | Nat.succ m' =>
            rw [List.take_succ_cons]
            exact hmin m' (Nat.lt_of_succ_lt_succ hm)

/-- An arrival sequence holding an accepted report for every roster identity
leaves the registry complete. -/
lemma complete_of_cover (ds : List Datagram) (reg : Registry)
    (hcover : ∀ id ∈ expected_receivers,
      ∃ j hn, Datagram.msg j ∈ ds ∧ j.hostname = some hn ∧ lower hn = id) :
    reg_complete (apply_datagrams reg ds) = true := by
  unfold reg_complete
  rw [List.all_eq_true]
  intro id hid
  obtain ⟨j, hn, hmem, hhn, hlow⟩ := hcover id hid
  have hrep : j ∈ reports_for id ds := by
    unfold reports_for
    rw [List.mem_filterMap]
    refine ⟨Datagram.msg j, hmem, ?_⟩
    simp only [hhn, if_pos hlow]
  have hne : reports_for id ds ≠ [] := List.ne_nil_of_mem hrep
  obtain ⟨x, hx⟩ := Option.isSome_iff_exists.mp (List.getLast?_isSome.mpr hne)
  rw [lookup_apply_datagrams ds reg id hid, hx]
  rfl

lemma reg_complete_empty : reg_complete empty_registry = false := rfl

/-- C5: an arrival sequence of well-formed reports that covers the roster —
in any order, with arbitrary duplicates — makes the server trigger exactly
one aggregation pass (the loop result is a one-element list), at the first
prefix at which every roster identity has a registry entry, and the registry
of that pass holds, for each identity, the most recently received report for
it (a later report overwrites an earlier one). -/
theorem registry_completion (msgs : List Datagram)
    (hfields : ∀ j, Datagram.msg j ∈ msgs → has_data_fields j = true)
    (hcover : ∀ id ∈ expected_receivers,
      ∃ j hn, Datagram.msg j ∈ msgs ∧ j.hostname = some hn ∧ lower hn = id) :
    ∃ k, 0 < k ∧ k ≤ msgs.length
      ∧ server_loop empty_registry msgs = [apply_datagrams empty_registry (msgs.take k)]
      ∧ reg_complete (apply_datagrams empty_registry (msgs.take k)) = true
      ∧ (∀ m, m < k → reg_complete (apply_datagrams empty_registry (msgs.take m)) = false)
      ∧ ∀ id ∈ expected_receivers,
          apply_datagrams empty_registry (msgs.take k) id
            = (reports_for id (msgs.take k)).getLast? := by
  rcases server_loop_spec msgs empty_registry hfields reg_complete_empty with
    ⟨_, hall⟩ | ⟨k, hk0, hkle, hloop, hcomp, hmin⟩
  · exfalso
    have h1 : reg_complete (apply_datagrams empty_registry (msgs.take msgs.length)) = false :=
      hall msgs.length (le_refl _)
    rw [List.take_length] at h1
    rw [complete_of_cover msgs empty_registry hcover] at h1
    cases h1
  · refine ⟨k, hk0, hkle, hloop, hcomp, hmin, ?_⟩
    intro id hid
    rw [lookup_apply_datagrams (msgs.take k) empty_registry id hid]
    rw [show empty_registry id = none from rfl, Option.or_none]

/-- Witness for C5, at `sample_arrivals`: both hypotheses hold there, so the
loop performs exactly one pass with the most recent report per identity. -/
theorem registry_completion_witness :
    (∀ j, Datagram.msg j ∈ sample_arrivals → has_data_fields j = true) ∧
    (∀ id ∈ expected_receivers,
      ∃ j hn, Datagram.msg j ∈ sample_arrivals ∧ j.hostname = some hn ∧ lower hn = id) ∧
    (∃ k, 0 < k ∧ k ≤ sample_arrivals.length
      ∧ server_loop empty_registry sample_arrivals
          = [apply_datagrams empty_registry (sample_arrivals.take k)]
      ∧ reg_complete (apply_datagrams empty_registry (sample_arrivals.take k)) = true
      ∧ (∀ m, m < k →
          reg_complete (apply_datagrams empty_registry (sample_arrivals.take m)) = false)
      ∧ ∀ id ∈ expected_receivers,
          apply_datagrams empty_registry (sample_arrivals.take k) id
            = (reports_for id (sample_arrivals.take k)).getLast?) := by
  have hfields : ∀ j, Datagram.msg j ∈ sample_arrivals → has_data_fields j = true := by
    intro j hj
    simp only [sample_arrivals, List.mem_cons, List.not_mem_nil, or_false] at hj
    rcases hj with h | h | h | h | h | h <;> first
      | (cases h; rfl)
      | (cases h)
  have hcover : ∀ id ∈ expected_receivers,
      ∃ j hn, Datagram.msg j ∈ sample_arrivals ∧ j.hostname = some hn ∧ lower hn = id := by
    intro id hid
    simp only [expected_receivers, List.mem_cons, List.not_mem_nil, or_false] at hid
    rcases hid with rfl | rfl | rfl
    · exact ⟨sample_report "Reciever1" 51.6 (-0.2) 2000, "Reciever1",
        by simp [sample_arrivals], rfl, by decide⟩
    · exact ⟨sample_report "reciever2" 51.5 (-0.1) 1000, "reciever2",
        by simp [sample_arrivals], rfl, by decide⟩
    · exact ⟨sample_report "reciever3" 51.8 (-0.4) 4000, "reciever3",
        by simp [sample_arrivals], rfl, by decide⟩
  exact ⟨hfields, hcover, registry_completion sample_arrivals hfields hcover⟩

/-- C7 at its failing input (a code bug): the decoded payload
`\x7b "hostname": "reciever1" \x7d` — a roster identity with the required
`lat`, `lon`, `time` fields all missing — is claimed to be discarded with
the registry left unchanged; but `run_server` stores the record at line 232
before the `print` at line 233 raises `KeyError`, so the registry gains the
incomplete entry (while the completion check of line 236 is skipped for that
round).  Undecodable payloads and unknown identities do behave as claimed;
this input does not. -/
theorem missing_field_report_is_stored :
    apply_datagram empty_registry
        (Datagram.msg { hostname := some "reciever1", lat := none, lon := none, time := none })
        "reciever1"
      = some { hostname := some "reciever1", lat := none, lon := none, time := none }
    ∧ empty_registry "reciever1" = none
    ∧ reaches_completion_check
        (Datagram.msg { hostname := some "reciever1", lat := none, lon := none, time := none })
      = false := by
  refine ⟨?_, rfl, by decide⟩
  have hl : lower "reciever1" = "reciever1" := by decide
  rw [apply_datagram_msg_some _ _ "reciever1" rfl, hl, if_pos (by decide)]
  exact upsert_same _ _ _

/-- C10: roster matching is case-insensitive by lowercasing.  For every
decoded payload carrying a hostname, the payload is accepted — stored under
the lowercased hostname, all other keys untouched — exactly when the
lowercased hostname is in the roster, and rejected payloads leave the
registry unchanged; the registry key used is always the lowercased
identity. -/
theorem lowercase_roster_matching (reg : Registry) (j : JsonMsg) (hn : String)
    (hhn : j.hostname = some hn) :
    (lower hn ∈ expected_receivers →
      apply_datagram reg (Datagram.msg j) (lower hn) = some j ∧
      ∀ k, k ≠ lower hn → apply_datagram reg (Datagram.msg j) k = reg k) ∧
    (lower hn ∉ expected_receivers → apply_datagram reg (Datagram.msg j) = reg) := by
  constructor
  · intro hmem
    rw [apply_datagram_msg_some reg j hn hhn, if_pos hmem]
    exact ⟨upsert_same _ _ _, fun k hk => upsert_other _ _ _ _ hk⟩
  · intro hmem
    rw [apply_datagram_msg_some reg j hn hhn, if_neg hmem]

/-- Witness for C10 at the mixed-case hostname `RECIEVER2`: its lowercasing
is `reciever2`, which is in the roster, so the payload is accepted and
stored under `reciever2`. -/
theorem lowercase_roster_matching_witness :
    ((sample_report "RECIEVER2" 51.5 (-0.1) 1000).hostname = some "RECIEVER2") ∧
    lower "RECIEVER2" = "reciever2" ∧ ("reciever2" ∈ expected_receivers) ∧
    ((lower "RECIEVER2" ∈ expected_receivers →
      apply_datagram empty_registry (Datagram.msg (sample_report "RECIEVER2" 51.5 (-0.1) 1000))
          (lower "RECIEVER2")
        = some (sample_report "RECIEVER2" 51.5 (-0.1) 1000) ∧
      ∀ k, k ≠ lower "RECIEVER2" →
        apply_datagram empty_registry (Datagram.msg (sample_report "RECIEVER2" 51.5 (-0.1) 1000)) k
          = empty_registry k) ∧
    (lower "RECIEVER2" ∉ expected_receivers →
      apply_datagram empty_registry (Datagram.msg (sample_report "RECIEVER2" 51.5 (-0.1) 1000))
        = empty_registry)) :=
  ⟨rfl, by decide, by decide,
   lowercase_roster_matching empty_registry (sample_report "RECIEVER2" 51.5 (-0.1) 1000)
     "RECIEVER2" rfl⟩

/-! ### Pairwise aggregation over three receivers -/

lemma lookup_cons_eq {β : Type} (a : String) (x : β) (l : List (String × β)) :
    List.lookup a ((a, x) :: l) = some x := by
  simp [List.lookup]

lemma lookup_cons_ne {β : Type} (a k : String) (x : β) (l : List (String × β)) (h : a ≠ k) :
    List.lookup a ((k, x) :: l) = List.lookup a l := by
  simp [List.lookup, beq_eq_false_iff_ne.mpr h]

lemma build_cons_skip (data : List (String × JsonMsg)) (idx : ℕ) (ref nonRef : String)
    (rest : List (ℕ × (String × String))) (jr jn : JsonMsg)
    (tr tn : ℤ) (latR lonR latN lonN : ℝ)
    (h1 : data.lookup ref = some jr) (h2 : data.lookup nonRef = some jn)
    (h3 : jr.time = some tr) (h4 : jn.time = some tn)
    (h5 : jr.lat = some latR) (h6 : jr.lon = some lonR)
    (h7 : jn.lat = some latN) (h8 : jn.lon = some lonN)
    (hR : compute_hyperbola_local (latR, lonR) (latN, lonN)
      (((tr - tn : ℤ) : ℝ) / 1000000000) 343 1000 = none) :
    build_hyperbolas data ((idx, (ref, nonRef)) :: rest) = build_hyperbolas data rest := by
  simp only [build_hyperbolas, h1, h2, h3, h4, h5, h6, h7, h8, hR]

lemma build_cons_keep (data : List (String × JsonMsg)) (idx : ℕ) (ref nonRef : String)
    (rest : List (ℕ × (String × String))) (jr jn : JsonMsg)
    (tr tn : ℤ) (latR lonR latN lonN : ℝ) (pts : List (ℝ × ℝ))
    (h1 : data.lookup ref = some jr) (h2 : data.lookup nonRef = some jn)
    (h3 : jr.time = some tr) (h4 : jn.time = some tn)
    (h5 : jr.lat = some latR) (h6 : jr.lon = some lonR)
    (h7 : jn.lat = some latN) (h8 : jn.lon = some lonN)
    (hR : compute_hyperbola_local (latR, lonR) (latN, lonN)
      (((tr - tn : ℤ) : ℝ) / 1000000000) 343 1000 = some pts) :
    build_hyperbolas data ((idx, (ref, nonRef)) :: rest)
      = (build_hyperbolas data rest).map
          (fun l => { pair := ref ++ "_vs_" ++ nonRef, pts := pts,
                      color := colors.getD (idx % colors.length) "" } :: l) := by
  simp only [build_hyperbolas, h1, h2, h3, h4, h5, h6, h7, h8, hR]

/-- C6: with three (distinct, fully populated) receivers in the registry the
aggregator enumerates exactly the 3 unordered pairs `C(3,2)` and invokes the
engine once per pair; when exactly one pair is domain-invalid, only that pair
is skipped: the map generation still succeeds and forwards exactly the two
remaining hyperbolas, each labelled with its pair key and cyclic colour. -/
theorem three_receivers_skip_invalid
    (a b c : String) (ja jb jc : JsonMsg)
    (lata lona latb lonb latc lonc : ℝ) (ta tb tc : ℤ)
    (hab : a ≠ b) (hac : a ≠ c) (hbc : b ≠ c)
    (hja1 : ja.lat = some lata) (hja2 : ja.lon = some lona) (hja3 : ja.time = some ta)
    (hjb1 : jb.lat = some latb) (hjb2 : jb.lon = some lonb) (hjb3 : jb.time = some tb)
    (hjc1 : jc.lat = some latc) (hjc2 : jc.lon = some lonc) (hjc3 : jc.time = some tc)
    (hone :
      (compute_hyperbola_local (lata, lona) (latb, lonb)
          (((ta - tb : ℤ) : ℝ) / 1000000000) 343 1000 = none
        ∧ compute_hyperbola_local (lata, lona) (latc, lonc)
            (((ta - tc : ℤ) : ℝ) / 1000000000) 343 1000 ≠ none
        ∧ compute_hyperbola_local (latb, lonb) (latc, lonc)
            (((tb - tc : ℤ) : ℝ) / 1000000000) 343 1000 ≠ none)
      ∨ (compute_hyperbola_local (lata, lona) (latb, lonb)
            (((ta - tb : ℤ) : ℝ) / 1000000000) 343 1000 ≠ none
        ∧ compute_hyperbola_local (lata, lona) (latc, lonc)
            (((ta - tc : ℤ) : ℝ) / 1000000000) 343 1000 = none
        ∧ compute_hyperbola_local (latb, lonb) (latc, lonc)
            (((tb - tc : ℤ) : ℝ) / 1000000000) 343 1000 ≠ none)
      ∨ (compute_hyperbola_local (lata, lona) (latb, lonb)
            (((ta - tb : ℤ) : ℝ) / 1000000000) 343 1000 ≠ none
        ∧ compute_hyperbola_local (lata, lona) (latc, lonc)
            (((ta - tc : ℤ) : ℝ) / 1000000000) 343 1000 ≠ none
        ∧ compute_hyperbola_local (latb, lonb) (latc, lonc)
            (((tb - tc : ℤ) : ℝ) / 1000000000) 343 1000 = none)) :
    combinations2 [a, b, c] = [(a, b), (a, c), (b, c)] ∧
    ∃ l, generate_map [(a, ja), (b, jb), (c, jc)] = some l ∧ l.length = 2
      ∧ (∀ pts, compute_hyperbola_local (lata, lona) (latb, lonb)
            (((ta - tb : ℤ) : ℝ) / 1000000000) 343 1000 = some pts →
          HypEntry.mk (a ++ "_vs_" ++ b) pts "red" ∈ l)
      ∧ (∀ pts, compute_hyperbola_local (lata, lona) (latc, lonc)
            (((ta - tc : ℤ) : ℝ) / 1000000000) 343 1000 = some pts →
          HypEntry.mk (a ++ "_vs_" ++ c) pts "blue" ∈ l)
      ∧ (∀ pts, compute_hyperbola_local (latb, lonb) (latc, lonc)
            (((tb - tc : ℤ) : ℝ) / 1000000000) 343 1000 = some pts →
          HypEntry.mk (b ++ "_vs_" ++ c) pts "green" ∈ l) := by
  refine ⟨rfl, ?_⟩
  have hla : List.lookup a [(a, ja), (b, jb), (c, jc)] = some ja := lookup_cons_eq a ja _
  have hlb : List.lookup b [(a, ja), (b, jb), (c, jc)] = some jb := by
    rw [lookup_cons_ne b a ja _ (Ne.symm hab), lookup_cons_eq]
  have hlc : List.lookup c [(a, ja), (b, jb), (c, jc)] = some jc := by
    rw [lookup_cons_ne c a ja _ (Ne.symm hac), lookup_cons_ne c b jb _ (Ne.symm hbc),
      lookup_cons_eq]
  have hgm : generate_map [(a, ja), (b, jb), (c, jc)]
      = build_hyperbolas [(a, ja), (b, jb), (c, jc)] [(0, (a, b)), (1, (a, c)), (2, (b, c))] := by
    rw [generate_map, if_neg (by norm_num)]
    rfl
  have hnil : build_hyperbolas [(a, ja), (b, jb), (c, jc)] [] = some [] := rfl
  rcases hone with ⟨h1, h2, h3⟩ | ⟨h1, h2, h3⟩ | ⟨h1, h2, h3⟩
  · obtain ⟨pac, hpac⟩ := Option.ne_none_iff_exists'.mp h2
    obtain ⟨pbc, hpbc⟩ := Option.ne_none_iff_exists'.mp h3
    refine ⟨[HypEntry.mk (a ++ "_vs_" ++ c) pac "blue",
             HypEntry.mk (b ++ "_vs_" ++ c) pbc "green"], ?_, rfl, ?_, ?_, ?_⟩
    · rw [hgm,
        build_cons_skip _ 0 a b _ ja jb ta tb lata lona latb lonb
          hla hlb hja3 hjb3 hja1 hja2 hjb1 hjb2 h1,
        build_cons_keep _ 1 a c _ ja jc ta tc lata lona latc lonc pac
          hla hlc hja3 hjc3 hja1 hja2 hjc1 hjc2 hpac,
        build_cons_keep _ 2 b c _ jb jc tb tc latb lonb latc lonc pbc
          hlb hlc hjb3 hjc3 hjb1 hjb2 hjc1 hjc2 hpbc,
        hnil]
      rfl
    · intro pts hpts
      rw [h1] at hpts
      cases hpts
    · intro pts hpts
      rw [hpac] at hpts
      cases hpts
      exact List.mem_cons_self _ _
    · intro pts hpts
      rw [hpbc] at hpts
      cases hpts
      exact List.mem_cons_of_mem _ (List.mem_cons_self _ _)
  · obtain ⟨pab, hpab⟩ := Option.ne_none_iff_exists'.mp h1
    obtain ⟨pbc, hpbc⟩ := Option.ne_none_iff_exists'.mp h3
    refine ⟨[HypEntry.mk (a ++ "_vs_" ++ b) pab "red",
             HypEntry.mk (b ++ "_vs_" ++ c) pbc "green"], ?_, rfl, ?_, ?_, ?_⟩
    · rw [hgm,
        build_cons_keep _ 0 a b _ ja jb ta tb lata lona latb lonb pab
          hla hlb hja3 hjb3 hja1 hja2 hjb1 hjb2 hpab,
        build_cons_skip _ 1 a c _ ja jc ta tc lata lona latc lonc
          hla hlc hja3 hjc3 hja1 hja2 hjc1 hjc2 h2,
        build_cons_keep _ 2 b c _ jb jc tb tc latb lonb latc lonc pbc
          hlb hlc hjb3 hjc3 hjb1 hjb2 hjc1 hjc2 hpbc,
        hnil]
      rfl
    · intro pts hpts
      rw [hpab] at hpts
      cases hpts
      exact List.mem_cons_self _ _
    · intro pts hpts
      rw [h2] at hpts
      cases hpts
    · intro pts hpts
      rw [hpbc] at hpts
      cases hpts
      exact List.mem_cons_of_mem _ (List.mem_cons_self _ _)
  · obtain ⟨pab, hpab⟩ := Option.ne_none_iff_exists'.mp h1
    obtain ⟨pac, hpac⟩ := Option.ne_none_iff_exists'.mp h2
    refine ⟨[HypEntry.mk (a ++ "_vs_" ++ b) pab "red",
             HypEntry.mk (a ++ "_vs_" ++ c) pac "blue"], ?_, rfl, ?_, ?_, ?_⟩
    · rw [hgm,
        build_cons_keep _ 0 a b _ ja jb ta tb lata lona latb lonb pab
          hla hlb hja3 hjb3 hja1 hja2 hjb1 hjb2 hpab,
        build_cons_keep _ 1 a c _ ja jc ta tc lata lona latc lonc pac
          hla hlc hja3 hjc3 hja1 hja2 hjc1 hjc2 hpac,
        build_cons_skip _ 2 b c _ jb jc tb tc latb lonb latc lonc
          hlb hlc hjb3 hjc3 hjb1 hjb2 hjc1 hjc2 h3,
        hnil]
      rfl
    · intro pts hpts
      rw [hpab] at hpts
      cases hpts
      exact List.mem_cons_self _ _
    · intro pts hpts
      rw [hpac] at hpts
      cases hpts
      exact List.mem_cons_of_mem _ (List.mem_cons_self _ _)
    · intro pts hpts
      rw [h3] at hpts
      cases hpts

/-- Witness for C6: three equatorial receivers 0, 0.001 and 0.002 degrees of
longitude apart, with arrival times chosen so that exactly the first pair is
domain-invalid (`|delta_t * v| = 137.2 m` against a 111.32 m baseline) while
both other pairs are valid. -/
theorem three_receivers_skip_invalid_witness :
    (compute_hyperbola_local (0, 0) (0, 0.001)
        (((400000000 - 0 : ℤ) : ℝ) / 1000000000) 343 1000 = none
      ∧ compute_hyperbola_local (0, 0) (0, 0.002)
          (((400000000 - 100000000 : ℤ) : ℝ) / 1000000000) 343 1000 ≠ none
      ∧ compute_hyperbola_local (0, 0.001) (0, 0.002)
          (((0 - 100000000 : ℤ) : ℝ) / 1000000000) 343 1000 ≠ none) ∧
    (combinations2 ["reciever1", "reciever2", "reciever3"]
        = [("reciever1", "reciever2"), ("reciever1", "reciever3"),
           ("reciever2", "reciever3")] ∧
      ∃ l, generate_map
            [("reciever1", sample_report "reciever1" 0 0 400000000),
             ("reciever2", sample_report "reciever2" 0 0.001 0),
             ("reciever3", sample_report "reciever3" 0 0.002 100000000)] = some l
        ∧ l.length = 2
        ∧ (∀ pts, compute_hyperbola_local (0, 0) (0, 0.001)
              (((400000000 - 0 : ℤ) : ℝ) / 1000000000) 343 1000 = some pts →
            HypEntry.mk ("reciever1" ++ "_vs_" ++ "reciever2") pts "red" ∈ l)
        ∧ (∀ pts, compute_hyperbola_local (0, 0) (0, 0.002)
              (((400000000 - 100000000 : ℤ) : ℝ) / 1000000000) 343 1000 = some pts →
            HypEntry.mk ("reciever1" ++ "_vs_" ++ "reciever3") pts "blue" ∈ l)
        ∧ (∀ pts, compute_hyperbola_local (0, 0.001) (0, 0.002)
              (((0 - 100000000 : ℤ) : ℝ) / 1000000000) 343 1000 = some pts →
            HypEntry.mk ("reciever2" ++ "_vs_" ++ "reciever3") pts "green" ∈ l)) := by
  have hab : compute_hyperbola_local (0, 0) (0, 0.001)
      (((400000000 - 0 : ℤ) : ℝ) / 1000000000) 343 1000 = none := by
    unfold compute_hyperbola_local
    rw [if_pos]
    rw [baseline_equator, show (((400000000 - 0 : ℤ) : ℝ)) = 400000000 from by norm_num]
    rw [abs_of_nonneg (by norm_num : (0 : ℝ) ≤ 400000000 / 1000000000 * 343),
      abs_of_nonneg (by norm_num : (0 : ℝ) ≤ ((0.001 : ℝ) - 0) * 111319.458)]
    norm_num
  have hac : compute_hyperbola_local (0, 0) (0, 0.002)
      (((400000000 - 100000000 : ℤ) : ℝ) / 1000000000) 343 1000 ≠ none := by
    unfold compute_hyperbola_local
    rw [if_neg]
    · simp
    · rw [baseline_equator,
        show (((400000000 - 100000000 : ℤ) : ℝ)) = 300000000 from by norm_num]
      rw [abs_of_nonneg (by norm_num : (0 : ℝ) ≤ 300000000 / 1000000000 * 343),
        abs_of_nonneg (by norm_num : (0 : ℝ) ≤ ((0.002 : ℝ) - 0) * 111319.458)]
      norm_num
  have hbc : compute_hyperbola_local (0, 0.001) (0, 0.002)
      (((0 - 100000000 : ℤ) : ℝ) / 1000000000) 343 1000 ≠ none := by
    unfold compute_hyperbola_local
    rw [if_neg]
    · simp
    · rw [baseline_equator,
        show (((0 - 100000000 : ℤ) : ℝ)) = -100000000 from by norm_num]
      rw [abs_of_nonpos (by norm_num : ((-100000000 : ℝ)) / 1000000000 * 343 ≤ 0),
        abs_of_nonneg (by norm_num : (0 : ℝ) ≤ ((0.002 : ℝ) - 0.001) * 111319.458)]
      norm_num
  refine ⟨⟨hab, hac, hbc⟩, ?_⟩
  exact three_receivers_skip_invalid "reciever1" "reciever2" "reciever3"
    (sample_report "reciever1" 0 0 400000000)
    (sample_report "reciever2" 0 0.001 0)
    (sample_report "reciever3" 0 0.002 100000000)
    0 0 0 0.001 0 0.002 400000000 0 100000000
    (by decide) (by decide) (by decide)
    rfl rfl rfl rfl rfl rfl rfl rfl rfl
    (Or.inl ⟨hab, hac, hbc⟩)

/-! ### The detection reporter's wire payload -/

/-- C2 at its failing input (a code bug): on a detection the reporter sends
the prose string of `main.py` line 87, not the self-describing associative
record claimed by the specification and required by `run_server`'s JSON
parser.  The payload's first character is `F` (code 70), not the record
opener (code 123), and it carries neither a `hostname` key nor the integer
nanosecond `time` — `run_server` rejects every such datagram as invalid
JSON, so the two programs cannot interoperate as shipped. -/
theorem detection_payload_not_record :
    detection_message "2024-01-01 12:00:00.000000" "Lat: 51.500000, Lon: -0.100000"
      = "Frequency detected at: 2024-01-01 12:00:00.000000, Lat: 51.500000, Lon: -0.100000"
    ∧ (detection_message "2024-01-01 12:00:00.000000"
        "Lat: 51.500000, Lon: -0.100000").data.head? = some (Char.ofNat 70)
    ∧ Char.ofNat 70 ≠ Char.ofNat 123 := by
  refine ⟨by decide, by decide, by decide⟩
